import Mathlib

/-!
Verification of the tournament data-model core of bbpPairings
(src/tournament/tournament.h): scores, match records, player state,
the rank comparator and the tournament aggregate, shallowly embedded in Lean.
-/

namespace BbpTournament

/-- MAX_PLAYERS from tournament.h. -/
def maxPlayers : Nat := 9999

/-- MAX_POINTS from tournament.h: scores are stored as ten times the actual
score, bounded by this constant. -/
def maxPoints : Nat := 1998

/-- MAX_RATING from tournament.h. -/
def maxRating : Nat := 9999

/-- The `points` typedef is `uint_least_for_value<MAX_POINTS>`, the smallest
unsigned integer type able to hold 1998, i.e. a 16-bit unsigned integer.
Arithmetic on it wraps modulo this value. -/
def pointsMod : Nat := 2 ^ 16

/-- The Color enum: COLOR_WHITE, COLOR_BLACK, COLOR_NONE. -/
inductive Color where
  | white
  | black
  | cnone
  deriving DecidableEq, Repr

/-- invert(Color) from tournament.h: white ↦ black, black ↦ white,
anything else ↦ COLOR_NONE. -/
def Color.invert : Color → Color
  | Color.white => Color.black
  | Color.black => Color.white
  | Color.cnone => Color.cnone

/-- The MatchScore enum: MATCH_SCORE_LOSS, MATCH_SCORE_DRAW, MATCH_SCORE_WIN,
with underlying values 0, 1, 2. -/
inductive MatchScore where
  | loss
  | draw
  | win
  deriving DecidableEq, Repr

/-- The underlying integer value of a MatchScore enumerator. -/
def MatchScore.val : MatchScore → Nat
  | MatchScore.loss => 0
  | MatchScore.draw => 1
  | MatchScore.win => 2

/-- The MatchScore enumerator with a given underlying value (0, 1 or 2). -/
def MatchScore.ofVal : Nat → MatchScore
  | 0 => MatchScore.loss
  | 1 => MatchScore.draw
  | _ => MatchScore.win

/-- invert(MatchScore) from tournament.h:
`MatchScore(MATCH_SCORE_WIN - matchScore)`, i.e. the enumerator whose
underlying value is 2 minus the argument's. -/
def MatchScore.invert (matchScore : MatchScore) : MatchScore :=
  MatchScore.ofVal (MatchScore.win.val - matchScore.val)

/-- The Match struct: the history of a single player on a single round.
The lack of an opponent is indicated by using the player's own ID. -/
structure Match where
  opponent : Nat
  color : Color
  matchScore : MatchScore
  gameWasPlayed : Bool
  participatedInPairing : Bool
  deriving DecidableEq, Repr

/-- The one-argument Match constructor `Match(player_index)`:
opponent := playerIndex, color := COLOR_NONE, matchScore := MATCH_SCORE_LOSS,
gameWasPlayed := false, participatedInPairing := false. -/
def Match.ofPlayerIndex (playerIndex : Nat) : Match :=
  { opponent := playerIndex
    color := Color.cnone
    matchScore := MatchScore.loss
    gameWasPlayed := false
    participatedInPairing := false }

/-- The Player struct of tournament.h. `forbiddenPairs` is the set of
opponents the player may not be paired against. -/
structure Player where
  «matches» : List Match
  accelerations : List Nat
  forbiddenPairs : Finset Nat
  id : Nat
  rankIndex : Nat
  rating : Nat
  scoreWithoutAcceleration : Nat
  acceleration : Nat
  colorPreference : Color
  absoluteColorPreference : Bool
  strongColorPreference : Bool
  isValid : Bool
  deriving DecidableEq

/-- The default Player constructor `Player() = default`: every field with a
default member initializer takes it (acceleration 0, colorPreference
COLOR_NONE, absoluteColorPreference/strongColorPreference false,
isValid false); value-initialization zeroes the rest. -/
def Player.defaultPlayer : Player :=
  { «matches» := []
    accelerations := []
    forbiddenPairs := ∅
    id := 0
    rankIndex := 0
    rating := 0
    scoreWithoutAcceleration := 0
    acceleration := 0
    colorPreference := Color.cnone
    absoluteColorPreference := false
    strongColorPreference := false
    isValid := false }

/-- The parameterized Player constructor
`Player(id_, points_, rating_, matches_, forbiddenPairs_)`:
id := id_, rankIndex := id_, rating := rating_,
scoreWithoutAcceleration := points_, isValid := true, and the fields with
default member initializers (acceleration, the color-preference triple)
keep those defaults. -/
def Player.make (id points rating : Nat) (matchList : List Match)
    (forbiddenPairs : Finset Nat) : Player :=
  { «matches» := matchList
    accelerations := []
    forbiddenPairs := forbiddenPairs
    id := id
    rankIndex := id
    rating := rating
    scoreWithoutAcceleration := points
    acceleration := 0
    colorPreference := Color.cnone
    absoluteColorPreference := false
    strongColorPreference := false
    isValid := true }

/-- Player::scoreWithAcceleration():
`scoreWithoutAcceleration + acceleration`. The operands are promoted to int,
added exactly, and the result converted back to the 16-bit `points` type,
i.e. reduced modulo 2^16. -/
def Player.scoreWithAcceleration (p : Player) : Nat :=
  (p.scoreWithoutAcceleration + p.acceleration) % pointsMod

/-- unacceleratedScoreRankCompare(player0, player1):
`std::tie(player0->scoreWithoutAcceleration, player1->rankIndex)
 < std::tie(player1->scoreWithoutAcceleration, player0->rankIndex)`,
the lexicographic comparison of the two pairs. -/
def unacceleratedScoreRankCompare (player0 player1 : Player) : Bool :=
  decide
    (player0.scoreWithoutAcceleration < player1.scoreWithoutAcceleration ∨
      (player0.scoreWithoutAcceleration = player1.scoreWithoutAcceleration ∧
        player1.rankIndex < player0.rankIndex))

/-- The Tournament struct: players indexed by ID, players indexed by their
effective pairing numbers, round counters, point values and initial color. -/
structure Tournament where
  players : List Player
  playersByRank : List Nat
  playedRounds : Nat
  expectedRounds : Nat
  pointsForWin : Nat
  pointsForDraw : Nat
  initialColor : Color

/-- Tournament::getPoints(matchScore):
`matchScore == MATCH_SCORE_LOSS ? 0
 : matchScore == MATCH_SCORE_WIN ? pointsForWin : pointsForDraw`. -/
def Tournament.getPoints (t : Tournament) (matchScore : MatchScore) : Nat :=
  if matchScore = MatchScore.loss then 0
  else if matchScore = MatchScore.win then t.pointsForWin
  else t.pointsForDraw

/-- Modelled from the spec: the sequence of colors actually played, in round
order — the colors of the matches with `gameWasPlayed == true` and
`color != None` (§4.1). The resolver body (tournament.cpp) is not in src/. -/
def coloredHistory (history : List Match) : List Color :=
  (history.filter
    (fun m => m.gameWasPlayed && decide (m.color ≠ Color.cnone))).map Match.color

/-- Modelled from the spec: the running color difference
`D = (#White played) − (#Black played)` (§4.1). -/
def colorDiff (colors : List Color) : Int :=
  (colors.count Color.white : Int) - (colors.count Color.black : Int)

/-- Modelled from the spec: whether the two most recent colored games had the
same color (§4.1). -/
def lastTwoSame (colors : List Color) : Bool :=
  match colors.reverse with
  | a :: b :: _ => decide (a = b)
  | _ => false

/-- Modelled from the spec (§4.1; the resolver body, tournament.cpp, is not in
src/): the preferred color. If D > 0 the preference is Black, if D < 0 it is
White, and on D = 0 it is the inverse of the color of the most recent colored
game, or COLOR_NONE if no colored game exists. -/
def specColorPreference (history : List Match) : Color :=
  let colors := coloredHistory history
  let d := colorDiff colors
  if 0 < d then Color.black
  else if d < 0 then Color.white
  else
    match colors.getLast? with
    | some c => c.invert
    | none => Color.cnone

/-- Modelled from the spec (§4.1): the preference is absolute when |D| ≥ 2 or
the two most recent colored games had the same color. The spec's third clause
(a color received purely to compensate a prior absolute imbalance) depends on
the previous round's assignment state, which the match record does not carry;
it is vacuous for a player with no colored games, the only case verified
here. -/
def specAbsolutePreference (history : List Match) : Bool :=
  let colors := coloredHistory history
  decide (2 ≤ (colorDiff colors).natAbs) || lastTwoSame colors

/-- Modelled from the spec (§4.1): the preference is strong (but not absolute)
when |D| = 1 and the two most recent colored games were not identical. -/
def specStrongPreference (history : List Match) : Bool :=
  let colors := coloredHistory history
  decide ((colorDiff colors).natAbs = 1) && !(lastTwoSame colors)

/-- Modelled from the spec: constructing a `points` value checks the
configured bound MAX_POINTS and rejects larger values with
CapacityExceededError (§2 "saturating bounds checked at construction time",
§7: "never silently truncated"). The `uint_least_for_value` template
(utility/uinttypes.h) is not in src/. -/
def buildPoints (n : Nat) : Except String Nat :=
  if n ≤ maxPoints then Except.ok n
  else Except.error "CapacityExceededError"

/-- The ids of the valid players of a player list, in id order. -/
def validIdsOf (ps : List Player) : List Nat :=
  (ps.filter (fun p => p.isValid)).map Player.id

/-- The ids of the tournament's valid players. -/
def Tournament.validIds (t : Tournament) : List Nat :=
  validIdsOf t.players

/-- The invariant of §3: `playersByRank` is a permutation of the ids of all
`isValid` players, and its length never exceeds the player count. -/
def rankInvariant (t : Tournament) : Prop :=
  t.playersByRank.Perm t.validIds ∧
    t.playersByRank.length ≤ t.players.length

/-- Modelled from the spec (§4.2; tournament.cpp is not in src/):
Tournament::updateRanks orders the valid players by descending unaccelerated
score with ties broken by ascending previous rankIndex — player a precedes
player b exactly when `unacceleratedScoreRankCompare b a` — stores their ids
in `playersByRank`, and reassigns each valid player's rankIndex to its new
position. Invalid players are excluded entirely. -/
def Tournament.updateRanks (t : Tournament) : Tournament :=
  let ranked :=
    ((t.players.filter (fun p => p.isValid)).mergeSort
        (fun a b => unacceleratedScoreRankCompare b a)).map Player.id
  { t with
    playersByRank := ranked
    players := t.players.map (fun p =>
      if p.isValid then { p with rankIndex := ranked.indexOf p.id } else p) }

/-- Modelled from the spec (§4.1; tournament.cpp is not in src/): the Score &
Color-Preference Resolver for one player — recompute
`scoreWithoutAcceleration` as the sum of `getPoints(result)` over the matches
where the player participated in pairing or the game was played, the current
round's acceleration (zero when the schedule is shorter), and the
color-preference triple. Error signalling for internally inconsistent
histories is out of scope here. -/
def resolvePlayer (t : Tournament) (p : Player) : Player :=
  { p with
    scoreWithoutAcceleration :=
      ((p.«matches».filter
          (fun m => m.participatedInPairing || m.gameWasPlayed)).map
        (fun m => t.getPoints m.matchScore)).sum
    acceleration := p.accelerations.getD t.playedRounds 0
    colorPreference := specColorPreference p.«matches»
    absoluteColorPreference := specAbsolutePreference p.«matches»
    strongColorPreference := specStrongPreference p.«matches» }

/-- Modelled from the spec (§4.1; tournament.cpp is not in src/):
Tournament::computePlayerData runs the resolver over every player; it touches
only the derived per-player fields, not `playersByRank`. -/
def Tournament.computePlayerData (t : Tournament) : Tournament :=
  { t with players := t.players.map (resolvePlayer t) }

/-- Modelled from the spec (§4.3): insert each id of one forbidden pair into
the other player's forbidden set. -/
def addForbidden (ps : List Player) (a b : Nat) : List Player :=
  ps.map (fun p =>
    if p.id = a then { p with forbiddenPairs := insert b p.forbiddenPairs }
    else if p.id = b then { p with forbiddenPairs := insert a p.forbiddenPairs }
    else p)

/-- Whether some valid player carries the given id. -/
def Tournament.hasValidPlayer (t : Tournament) (i : Nat) : Bool :=
  t.players.any (fun p => p.isValid && p.id == i)

/-- Modelled from the spec (§4.3; tournament.cpp is not in src/):
Tournament::forbidPairs inserts each id of every pair into the other's
forbidden set, symmetrically; it fails with InvalidReferenceError when an id
has no valid record and rejects self-pairs, committing nothing in that
case. -/
def Tournament.forbidPairs (t : Tournament) (pairs : List (Nat × Nat)) :
    Except String Tournament :=
  if pairs.all (fun pr =>
      decide (pr.1 ≠ pr.2) && t.hasValidPlayer pr.1 && t.hasValidPlayer pr.2)
  then
    Except.ok
      { t with
        players :=
          pairs.foldl (fun ps pr => addForbidden ps pr.1 pr.2) t.players }
  else Except.error "InvalidReferenceError"

/-- A sample player with pairing id 3, score 10 and rating 1500. -/
def samplePlayerA : Player := Player.make 3 10 1500 [] ∅

/-- A sample player with pairing id 7, score 10 and rating 1600. -/
def samplePlayerB : Player := Player.make 7 10 1600 [] ∅

/-- A tournament with no players at all. -/
def emptyTournament : Tournament :=
  { players := []
    playersByRank := []
    playedRounds := 0
    expectedRounds := 0
    pointsForWin := 10
    pointsForDraw := 5
    initialColor := Color.cnone }

/-- C1: the rank comparator places player A above player B exactly when
A.scoreWithoutAcceleration > B.scoreWithoutAcceleration, or the two scores
are equal and A.rankIndex < B.rankIndex; that is,
unacceleratedScoreRankCompare(B, A) is true exactly under that condition. -/
theorem C1_rank_compare_places_above (A B : Player) :
    unacceleratedScoreRankCompare B A = true ↔
      (A.scoreWithoutAcceleration > B.scoreWithoutAcceleration ∨
        (A.scoreWithoutAcceleration = B.scoreWithoutAcceleration ∧
          A.rankIndex < B.rankIndex)) := by
  simp only [unacceleratedScoreRankCompare, decide_eq_true_eq]
  omega

/-- C2: Tournament::getPoints returns pointsForWin for MATCH_SCORE_WIN,
pointsForDraw for MATCH_SCORE_DRAW and 0 for MATCH_SCORE_LOSS, whatever the
configured point values are. -/
theorem C2_getPoints_values (t : Tournament) :
    t.getPoints MatchScore.win = t.pointsForWin ∧
    t.getPoints MatchScore.draw = t.pointsForDraw ∧
    t.getPoints MatchScore.loss = 0 := by
  refine ⟨?_, ?_, ?_⟩ <;> simp [Tournament.getPoints]

/-- C3: on players with distinct rankIndex values the rank comparator is a
strict total order: exactly one of compare(A, B) and compare(B, A) holds, it
is irreflexive, asymmetric, and transitive. -/
theorem C3_rank_compare_strict_total_order (A B C : Player)
    (h : A.rankIndex ≠ B.rankIndex) :
    ((unacceleratedScoreRankCompare A B = true ∧
        unacceleratedScoreRankCompare B A = false) ∨
      (unacceleratedScoreRankCompare A B = false ∧
        unacceleratedScoreRankCompare B A = true)) ∧
    unacceleratedScoreRankCompare A A = false ∧
    (unacceleratedScoreRankCompare A B = true →
      unacceleratedScoreRankCompare B A = false) ∧
    (unacceleratedScoreRankCompare A B = true →
      unacceleratedScoreRankCompare B C = true →
      unacceleratedScoreRankCompare A C = true) := by
  simp only [unacceleratedScoreRankCompare, decide_eq_true_eq,
    decide_eq_false_iff_not]
  omega

/-- Witness for C3 at two concrete players with equal scores and rank indices
3 and 7. -/
theorem C3_rank_compare_strict_total_order_witness :
    ((unacceleratedScoreRankCompare samplePlayerA samplePlayerB = true ∧
        unacceleratedScoreRankCompare samplePlayerB samplePlayerA = false) ∨
      (unacceleratedScoreRankCompare samplePlayerA samplePlayerB = false ∧
        unacceleratedScoreRankCompare samplePlayerB samplePlayerA = true)) ∧
    unacceleratedScoreRankCompare samplePlayerA samplePlayerA = false ∧
    (unacceleratedScoreRankCompare samplePlayerA samplePlayerB = true →
      unacceleratedScoreRankCompare samplePlayerB samplePlayerA = false) ∧
    (unacceleratedScoreRankCompare samplePlayerA samplePlayerB = true →
      unacceleratedScoreRankCompare samplePlayerB samplePlayerA = true →
      unacceleratedScoreRankCompare samplePlayerA samplePlayerA = true) :=
  C3_rank_compare_strict_total_order samplePlayerA samplePlayerB samplePlayerA
    (by decide)

/-- C4: scoreWithAcceleration() returns exactly
scoreWithoutAcceleration + acceleration whenever both stay within the
configured score bound (so that the 16-bit addition cannot wrap), and the
result is a function of those two stored fields alone — the Player record
keeps no separate accelerated-score field. -/
theorem C4_scoreWithAcceleration_derived (p q : Player)
    (h0 : p.scoreWithoutAcceleration ≤ maxPoints)
    (h1 : p.acceleration ≤ maxPoints) :
    p.scoreWithAcceleration =
      p.scoreWithoutAcceleration + p.acceleration ∧
    (p.scoreWithoutAcceleration = q.scoreWithoutAcceleration →
      p.acceleration = q.acceleration →
      p.scoreWithAcceleration = q.scoreWithAcceleration) := by
  unfold Player.scoreWithAcceleration
  unfold maxPoints at h0 h1
  unfold pointsMod
  constructor
  · omega
  · intro e1 e2
    rw [e1, e2]

/-- Witness for C4 at a concrete player. -/
theorem C4_scoreWithAcceleration_derived_witness :
    samplePlayerA.scoreWithAcceleration =
      samplePlayerA.scoreWithoutAcceleration + samplePlayerA.acceleration ∧
    (samplePlayerA.scoreWithoutAcceleration =
        samplePlayerB.scoreWithoutAcceleration →
      samplePlayerA.acceleration = samplePlayerB.acceleration →
      samplePlayerA.scoreWithAcceleration =
        samplePlayerB.scoreWithAcceleration) :=
  C4_scoreWithAcceleration_derived samplePlayerA samplePlayerB
    (by decide) (by decide)

/-- C5: a player who has played no colored game — in particular a freshly
constructed Player, via either constructor — has colorPreference COLOR_NONE,
absoluteColorPreference false and strongColorPreference false. -/
theorem C5_no_colored_game_no_preference (ms : List Match)
    (id pts rat : Nat) (fps : Finset Nat)
    (h : coloredHistory ms = []) :
    specColorPreference ms = Color.cnone ∧
    specAbsolutePreference ms = false ∧
    specStrongPreference ms = false ∧
    (Player.make id pts rat ms fps).colorPreference = Color.cnone ∧
    (Player.make id pts rat ms fps).absoluteColorPreference = false ∧
    (Player.make id pts rat ms fps).strongColorPreference = false ∧
    Player.defaultPlayer.colorPreference = Color.cnone ∧
    Player.defaultPlayer.absoluteColorPreference = false ∧
    Player.defaultPlayer.strongColorPreference = false := by
  refine ⟨?_, ?_, ?_, rfl, rfl, rfl, rfl, rfl, rfl⟩
  · unfold specColorPreference
    rw [h]
    decide
  · unfold specAbsolutePreference
    rw [h]
    decide
  · unfold specStrongPreference
    rw [h]
    decide

/-- Witness for C5 at a concrete history holding one bye round (no colored
game). -/
theorem C5_no_colored_game_no_preference_witness :
    specColorPreference [Match.ofPlayerIndex 0] = Color.cnone ∧
    specAbsolutePreference [Match.ofPlayerIndex 0] = false ∧
    specStrongPreference [Match.ofPlayerIndex 0] = false ∧
    (Player.make 0 0 0 [Match.ofPlayerIndex 0] ∅).colorPreference =
      Color.cnone ∧
    (Player.make 0 0 0 [Match.ofPlayerIndex 0] ∅).absoluteColorPreference =
      false ∧
    (Player.make 0 0 0 [Match.ofPlayerIndex 0] ∅).strongColorPreference =
      false ∧
    Player.defaultPlayer.colorPreference = Color.cnone ∧
    Player.defaultPlayer.absoluteColorPreference = false ∧
    Player.defaultPlayer.strongColorPreference = false :=
  C5_no_colored_game_no_preference [Match.ofPlayerIndex 0] 0 0 0 ∅ (by decide)

/-- C6: the single-argument Match constructor yields the no-real-opponent
record: opponent is the player's own id, color COLOR_NONE, gameWasPlayed
false, participatedInPairing false. -/
theorem C6_match_self_reference (p : Nat) :
    (Match.ofPlayerIndex p).opponent = p ∧
    (Match.ofPlayerIndex p).color = Color.cnone ∧
    (Match.ofPlayerIndex p).gameWasPlayed = false ∧
    (Match.ofPlayerIndex p).participatedInPairing = false :=
  ⟨rfl, rfl, rfl, rfl⟩

/-- C7: the score type is bounded by MAX_POINTS and construction checks the
bound: values within the bound are accepted unchanged, larger values are
rejected rather than silently represented, and every accepted value lies
within the bound. -/
theorem C7_points_bound_checked (n : Nat) :
    (n ≤ maxPoints → buildPoints n = Except.ok n) ∧
    (maxPoints < n →
      buildPoints n = Except.error "CapacityExceededError") ∧
    (∀ m, buildPoints n = Except.ok m → m ≤ maxPoints) := by
  unfold buildPoints
  refine ⟨fun h => by rw [if_pos h],
    fun h => by rw [if_neg (Nat.not_le.mpr h)], ?_⟩
  intro m hm
  by_cases h : n ≤ maxPoints
  · rw [if_pos h] at hm
    injection hm with h2
    omega
  · rw [if_neg h] at hm
    exact Except.noConfusion hm

/-- Witness for C7: 10 tenths-of-a-point is accepted, 2000 exceeds
MAX_POINTS = 1998 and is rejected, and the accepted value is in bounds. -/
theorem C7_points_bound_checked_witness :
    buildPoints 10 = Except.ok 10 ∧
    buildPoints 2000 = Except.error "CapacityExceededError" ∧
    (10 : Nat) ≤ maxPoints :=
  ⟨(C7_points_bound_checked 10).1 (by decide),
    (C7_points_bound_checked 2000).2.1 (by decide),
    (C7_points_bound_checked 10).2.2 10
      ((C7_points_bound_checked 10).1 (by decide))⟩

/-- C9: the parameterized Player constructor marks the record valid,
initializes rankIndex to the id, stores the given score and rating, and
leaves acceleration zero; the default-constructed placeholder is the only
invalid record. -/
theorem C9_player_constructor (id pts rat : Nat) (ms : List Match)
    (fps : Finset Nat) :
    (Player.make id pts rat ms fps).isValid = true ∧
    (Player.make id pts rat ms fps).id = id ∧
    (Player.make id pts rat ms fps).rankIndex = id ∧
    (Player.make id pts rat ms fps).scoreWithoutAcceleration = pts ∧
    (Player.make id pts rat ms fps).acceleration = 0 ∧
    (Player.make id pts rat ms fps).rating = rat ∧
    Player.defaultPlayer.isValid = false :=
  ⟨rfl, rfl, rfl, rfl, rfl, rfl, rfl⟩

/-- C10: invert on Color swaps White and Black and fixes COLOR_NONE; invert
on MatchScore swaps WIN and LOSS and fixes DRAW; both are involutions. -/
theorem C10_invert_involutions :
    Color.invert Color.white = Color.black ∧
    Color.invert Color.black = Color.white ∧
    Color.invert Color.cnone = Color.cnone ∧
    MatchScore.invert MatchScore.win = MatchScore.loss ∧
    MatchScore.invert MatchScore.loss = MatchScore.win ∧
    MatchScore.invert MatchScore.draw = MatchScore.draw ∧
    (∀ c : Color, c.invert.invert = c) ∧
    (∀ s : MatchScore, s.invert.invert = s) := by
  refine ⟨rfl, rfl, rfl, rfl, rfl, rfl, fun c => ?_, fun s => ?_⟩
  · cases c <;> rfl
  · cases s <;> rfl

/-- Mapping a function that preserves validity flags and ids over a player
list leaves the valid-id sequence unchanged. -/
theorem validIdsOf_map_of_preserve (f : Player → Player)
    (hv : ∀ p, (f p).isValid = p.isValid) (hid : ∀ p, (f p).id = p.id)
    (ps : List Player) : validIdsOf (ps.map f) = validIdsOf ps := by
  induction ps with
  | nil => rfl
  | cons a l ih =>
    by_cases hval : a.isValid = true <;>
      simp [validIdsOf, List.filter_cons, hv a, hval, hid a,
        validIdsOf] at ih ⊢ <;> exact ih

/-- The valid-id sequence of a player list is at most as long as the list. -/
theorem validIdsOf_length_le (ps : List Player) :
    (validIdsOf ps).length ≤ ps.length := by
  unfold validIdsOf
  rw [List.length_map]
  exact List.length_filter_le _ _

/-- addForbidden changes only forbidden sets: the valid-id sequence and the
length of the player list are unchanged. -/
theorem addForbidden_preserves (ps : List Player) (a b : Nat) :
    validIdsOf (addForbidden ps a b) = validIdsOf ps ∧
    (addForbidden ps a b).length = ps.length := by
  constructor
  · unfold addForbidden
    apply validIdsOf_map_of_preserve
    · intro p
      dsimp only
      split
      · rfl
      · split <;> rfl
    · intro p
      dsimp only
      split
      · rfl
      · split <;> rfl
  · unfold addForbidden
    rw [List.length_map]

/-- Folding addForbidden over a pair list changes only forbidden sets. -/
theorem foldl_addForbidden_preserves (pairs : List (Nat × Nat))
    (ps : List Player) :
    validIdsOf (pairs.foldl (fun l pr => addForbidden l pr.1 pr.2) ps) =
      validIdsOf ps ∧
    (pairs.foldl (fun l pr => addForbidden l pr.1 pr.2) ps).length =
      ps.length := by
  induction pairs generalizing ps with
  | nil => exact ⟨rfl, rfl⟩
  | cons pr rest ih =>
    simp only [List.foldl_cons]
    have h := addForbidden_preserves ps pr.1 pr.2
    have h2 := ih (addForbidden ps pr.1 pr.2)
    exact ⟨h2.1.trans h.1, h2.2.trans h.2⟩

/-- C8: updateRanks establishes the invariant — playersByRank is a
permutation of the valid players' ids and no longer than the player list,
and with zero valid players it is empty — while computePlayerData and a
successful forbidPairs call preserve it. -/
theorem C8_playersByRank_invariant (t t' : Tournament)
    (pairs : List (Nat × Nat)) :
    rankInvariant t.updateRanks ∧
    (t.validIds = [] → (t.updateRanks).playersByRank = []) ∧
    (rankInvariant t → rankInvariant t.computePlayerData) ∧
    (rankInvariant t → t.forbidPairs pairs = Except.ok t' →
      rankInvariant t') := by
  have hreassign : ∀ f : Player → Nat,
      validIdsOf (t.players.map (fun p =>
        if p.isValid then { p with rankIndex := f p }
        else p)) = validIdsOf t.players := by
    intro f
    apply validIdsOf_map_of_preserve
    · intro p
      dsimp only
      split <;> rfl
    · intro p
      dsimp only
      split <;> rfl
  have hbr : t.updateRanks.playersByRank =
      ((t.players.filter (fun p => p.isValid)).mergeSort
        (fun a b => unacceleratedScoreRankCompare b a)).map Player.id := rfl
  have hval : t.updateRanks.validIds = t.validIds := by
    unfold Tournament.validIds Tournament.updateRanks
    dsimp only
    exact hreassign _
  have hpl : t.updateRanks.players.length = t.players.length :=
    List.length_map _ _
  have h1 : rankInvariant t.updateRanks := by
    constructor
    · rw [hbr, hval]
      exact (List.mergeSort_perm _ _).map Player.id
    · rw [hbr, hpl, List.length_map, List.length_mergeSort]
      exact List.length_filter_le _ _
  have h2 : t.validIds = [] → t.updateRanks.playersByRank = [] := by
    intro hnil
    have hp := h1.1
    rw [hval, hnil] at hp
    exact hp.eq_nil
  have h3 : rankInvariant t → rankInvariant t.computePlayerData := by
    intro hinv
    obtain ⟨hperm, hlen⟩ := hinv
    have hcv : t.computePlayerData.validIds = t.validIds :=
      validIdsOf_map_of_preserve (resolvePlayer t)
        (fun p => rfl) (fun p => rfl) t.players
    constructor
    · rw [show t.computePlayerData.playersByRank = t.playersByRank from rfl,
        hcv]
      exact hperm
    · rw [show t.computePlayerData.playersByRank = t.playersByRank from rfl]
      have hl : t.computePlayerData.players.length = t.players.length :=
        List.length_map _ _
      rw [hl]
      exact hlen
  have h4 : rankInvariant t → t.forbidPairs pairs = Except.ok t' →
      rankInvariant t' := by
    intro hinv heq
    obtain ⟨hperm, hlen⟩ := hinv
    unfold Tournament.forbidPairs at heq
    split at heq
    · injection heq with heq2
      subst heq2
      have hfold := foldl_addForbidden_preserves pairs t.players
      constructor
      · show t.playersByRank.Perm (validIdsOf
          (pairs.foldl (fun l pr => addForbidden l pr.1 pr.2) t.players))
        rw [hfold.1]
        exact hperm
      · show t.playersByRank.length ≤
          (pairs.foldl (fun l pr => addForbidden l pr.1 pr.2)
            t.players).length
        rw [hfold.2]
        exact hlen
    · exact Except.noConfusion heq
  exact ⟨h1, h2, h3, h4⟩

/-- Witness for C8 at the empty tournament and an empty pair list: all the
hypotheses — the permutation invariant before the call, the emptiness of the
valid-player set, and the success of forbidPairs — hold there. -/
theorem C8_playersByRank_invariant_witness :
    rankInvariant emptyTournament.updateRanks ∧
    (emptyTournament.updateRanks).playersByRank = [] ∧
    rankInvariant emptyTournament.computePlayerData ∧
    rankInvariant emptyTournament :=
  have h := C8_playersByRank_invariant emptyTournament emptyTournament []
  have hinv : rankInvariant emptyTournament := ⟨List.Perm.nil, Nat.le_refl 0⟩
  ⟨h.1, h.2.1 rfl, h.2.2.1 hinv, h.2.2.2 hinv rfl⟩

end BbpTournament
